import Mathlib

/-!
Verification of the Intervue.AI backend core (`backend/app/main.py`)
against its natural-language specification.

The development shallowly embeds the Python code:

* JSON values decoded by `json.loads` become the inductive `Json`;
  a physical line of a JSONL store file is abstracted by the outcome
  of `json.loads` on it (`RawLine`).
* `datetime` values become `PyDateTime` (civil fields plus an optional
  UTC-offset in seconds); `datetime.fromisoformat` is modelled by an
  executable character-list parser for the ISO 8601 subset the
  program produces and consumes, and `isoformat` by an executable printer.
* Stateful code (the rate limiter, the question-bank snapshot cache,
  the attempts store) is modelled by explicit state passing.
* Fallible code returns `Except` / `Option`.
-/

namespace Intervue

/-! ## JSON values

`Json` models the result of Python's `json.loads` on one line: an object
(dict with unique keys, association list in insertion order), an array,
a string, an integer (floats do not occur in this store), a boolean or
null. -/

inductive Json : Type where
  | obj (kvs : List (String × Json))
  | arr (elems : List Json)
  | str (s : String)
  | num (n : Int)
  | bool (b : Bool)
  | null

/-- `d.get(k)` / `d[k]` on a dict: first association for `k`
(keys are unique in a decoded dict). -/
def Json.lookup (kvs : List (String × Json)) (k : String) : Option Json :=
  match kvs with
  | [] => none
  | (k', v) :: rest => if k' = k then some v else Json.lookup rest k

/-- `d[k] = v` on a dict: replace in place if the key exists,
else append at the end (Python 3.7+ dict insertion order). -/
def Json.setKey (kvs : List (String × Json)) (k : String) (v : Json) :
    List (String × Json) :=
  match kvs with
  | [] => [(k, v)]
  | (k', v') :: rest =>
      if k' = k then (k', v) :: rest else (k', v') :: Json.setKey rest k v

/-! ## Sliding-window rate limiter (`_rate_limit`, main.py lines 160-182)

Per-key state is a deque of admission timestamps, oldest first.  Times
are rationals (Python floats from `time.time()`). -/

/-- One bucket's deque after the pruning loop
`while dq and now - dq[0] > window: dq.popleft()`. -/
def pruneWindow (now window : ℚ) (dq : List ℚ) : List ℚ :=
  dq.dropWhile (fun t => decide (now - t > window))

/-- `_rate_limit` on one bucket: prune, then either reject (len ≥ rate,
HTTP 429, deque left pruned) or record `now` and admitReq. -/
def rateLimit (now : ℚ) (rate : ℕ) (window : ℚ) (dq : List ℚ) :
    Bool × List ℚ :=
  let pruned := pruneWindow now window dq
  if rate ≤ pruned.length then (false, pruned)
  else (true, pruned ++ [now])

/-- The per-IP bucket table `_ip_hits_read` / `_ip_hits_mutate`
(`defaultdict(deque)`): association list, missing key reads as `[]`. -/
def Buckets : Type := List (String × List ℚ)

def Buckets.get (bs : Buckets) (key : String) : List ℚ :=
  match bs with
  | [] => []
  | (k, dq) :: rest => if k = key then dq else Buckets.get rest key

def Buckets.set (bs : Buckets) (key : String) (dq : List ℚ) : Buckets :=
  match bs with
  | [] => [(key, dq)]
  | (k, dq') :: rest =>
      if k = key then (k, dq) :: rest else (k, dq') :: Buckets.set rest key dq

/-- `_rate_limit(request, bucket, rate, window)`: look up the caller's
deque, prune, admitReq or raise 429. -/
def admitReq (bs : Buckets) (key : String) (now : ℚ) (rate : ℕ)
    (window : ℚ) : Bool × Buckets :=
  let (ok, dq') := rateLimit now rate window (bs.get key)
  (ok, bs.set key dq')

/-- On a nondecreasing deque, the pruning loop removes exactly the
timestamps strictly older than `now - window`. -/
theorem pruneWindow_eq_filter (now window : ℚ) (dq : List ℚ)
    (hs : dq.Sorted (· ≤ ·)) :
    pruneWindow now window dq = dq.filter (fun t => decide (now - window ≤ t)) := by
  induction dq with
  | nil => rfl
  | cons h t ih =>
      rw [List.sorted_cons] at hs
      by_cases hdrop : now - h > window
      · have h2 : ¬ (now - window ≤ h) := by linarith
        rw [pruneWindow, List.dropWhile_cons, if_pos (by simpa using hdrop),
          List.filter_cons_of_neg (by simpa using h2)]
        exact ih hs.2
      · have hkeep : now - window ≤ h := by linarith
        have hall : ∀ a ∈ t, (fun t' => decide (now - window ≤ t')) a = true := by
          intro a ha; simpa using le_trans hkeep (hs.1 a ha)
        rw [pruneWindow, List.dropWhile_cons, if_neg (by simpa using hdrop),
          List.filter_cons_of_pos (by simpa using hkeep),
          List.filter_eq_self.mpr hall]

/-- Run a sequence of `_rate_limit` calls for one key, collecting the
admission outcomes (true = admitted, false = HTTP 429). -/
def admitSeq (key : String) (rate : ℕ) (window : ℚ) (times : List ℚ) :
    List Bool × Buckets :=
  times.foldl
    (fun acc t =>
      let r := admitReq acc.2 key t rate window
      (acc.1 ++ [r.1], r.2))
    ([], [])

/-- C3: sliding-window admission.  For every bucket (here: any deque that
arose from nondecreasing call times, i.e. a sorted deque), `_rate_limit`
first discards exactly the timestamps strictly older than `now - window`;
it admits and records `now` iff the remaining count is `< rate`, and on
rejection records nothing (the deque is left pruned).  Concretely, with
`rate=3, window=60`: three calls at t=0 succeed, a fourth at t=1 is
rejected, and a fourth at t=61 succeeds. -/
theorem c3_sliding_window_admission :
    (∀ (now window : ℚ) (rate : ℕ) (dq : List ℚ), dq.Sorted (· ≤ ·) →
      rateLimit now rate window dq =
        if (dq.filter (fun t => decide (now - window ≤ t))).length < rate
        then (true, dq.filter (fun t => decide (now - window ≤ t)) ++ [now])
        else (false, dq.filter (fun t => decide (now - window ≤ t))))
    ∧ (admitSeq "203.0.113.9" 3 60 [0, 0, 0, 1]).1 = [true, true, true, false]
    ∧ (admitSeq "203.0.113.9" 3 60 [0, 0, 0, 61]).1 = [true, true, true, true] := by
  refine ⟨?_,
    by norm_num [admitSeq, admitReq, rateLimit, pruneWindow, Buckets.get, Buckets.set,
      List.dropWhile_cons],
    by norm_num [admitSeq, admitReq, rateLimit, pruneWindow, Buckets.get, Buckets.set,
      List.dropWhile_cons]⟩
  intro now window rate dq hs
  unfold rateLimit
  rw [pruneWindow_eq_filter now window dq hs]
  by_cases hlen : (dq.filter (fun t => decide (now - window ≤ t))).length < rate
  · rw [if_neg (by omega), if_pos hlen]
  · rw [if_pos (by omega), if_neg hlen]

/-- Witness for C3 at a concrete sorted deque: at `now = 100`,
`window = 60`, the entry at t=10 is discarded (older than 40), t=50 is
kept, and with one slot left under `rate = 2` the call is admitted. -/
theorem c3_sliding_window_admission_witness :
    rateLimit 100 2 60 [10, 50] = (true, [50, 100]) := by
  rw [c3_sliding_window_admission.1 100 60 2 [10, 50] (by decide)]
  norm_num [List.filter]

/-! ## Question-bank snapshot cache
(`load_questions_from_disk` / `hot_reload_if_changed` / `startup`,
main.py lines 95-148)

The cache state is the module globals `QUESTIONS` (role → questions) and
`QUESTIONS_MTIME` (freshness token), plus an instrumented counter of
completed loads.  The backing file is abstracted by what `stat` and
`json.loads` would yield: absent, present-but-undecodable, or a decoded
`Json` value, each with its modification time. -/

/-- `app.models.Question` (pydantic model). -/
structure Question where
  id : String
  role : String
  text : String
  topic : Option String
  difficulty : Option String
deriving DecidableEq

/-- The snapshot-cache state: `QUESTIONS`, `QUESTIONS_MTIME`, and an
instrumented counter of completed disk loads. -/
structure QState where
  questions : List (String × List Question)
  mtime : ℚ
  loadCount : ℕ
deriving DecidableEq

/-- The backing `questions.json` file as seen by `stat` + `json.loads`. -/
inductive QSource where
  | absent
  | malformed (mtime : ℚ)
  | parsed (j : Json) (mtime : ℚ)

inductive LoadErr where
  | fileNotFound
  | decodeError
deriving DecidableEq

/-- Dict field access that must be a string (pydantic `str` field). -/
def getStr? (kvs : List (String × Json)) (k : String) : Option String :=
  match Json.lookup kvs k with
  | some (.str s) => some s
  | _ => none

/-- Optional string field: missing or `null` reads as `None`; a present
value must be a string. -/
def getOptStr? (kvs : List (String × Json)) (k : String) :
    Option (Option String) :=
  match Json.lookup kvs k with
  | none => some none
  | some .null => some none
  | some (.str s) => some (some s)
  | some _ => none

/-- `Question(**q)`: pydantic validation of one question object
(`role` and `text` must be non-empty, `difficulty` a literal). -/
def decodeQuestion (j : Json) : Option Question :=
  match j with
  | .obj kvs => do
      let id ← getStr? kvs "id"
      let role ← getStr? kvs "role"
      if role.length = 0 then none else do
      let text ← getStr? kvs "text"
      if text.length = 0 then none else do
      let topic ← getOptStr? kvs "topic"
      let diff ← getOptStr? kvs "difficulty"
      match diff with
      | none => pure ⟨id, role, text, topic, none⟩
      | some d =>
          if d = "easy" ∨ d = "medium" ∨ d = "hard" then
            pure ⟨id, role, text, topic, some d⟩
          else none
  | _ => none

/-- `{role: [Question(**q) for q in qs] for role, qs in data.items()}`:
the top level must be a dict of lists of valid question objects. -/
def decodeQuestions (j : Json) :
    Option (List (String × List Question)) :=
  match j with
  | .obj kvs =>
      kvs.mapM fun kv =>
        match kv.2 with
        | .arr qs => do
            let qs' ← qs.mapM decodeQuestion
            pure (kv.1, qs')
        | _ => none
  | _ => none

/-- `load_questions_from_disk`: read and fully re-parse the backing file;
on success replace `QUESTIONS` and `QUESTIONS_MTIME` (and bump the load
counter); any failure leaves the state untouched and propagates. -/
def loadQuestions (src : QSource) (st : QState) : Except LoadErr QState :=
  match src with
  | .absent => .error .fileNotFound
  | .malformed _ => .error .decodeError
  | .parsed j m =>
      match decodeQuestions j with
      | none => .error .decodeError
      | some snap => .ok ⟨snap, m, st.loadCount + 1⟩

/-- `hot_reload_if_changed`: stat the file (a missing file is caught and
ignored); reload only when the modification time differs from the stored
token. -/
def hotReload (src : QSource) (st : QState) : Except LoadErr QState :=
  match src with
  | .absent => .ok st
  | .malformed m => if m = st.mtime then .ok st else loadQuestions src st
  | .parsed _ m => if m = st.mtime then .ok st else loadQuestions src st

/-- C6: snapshot freshness.  With the backing file present and parseable,
a read-path freshness check re-reads and re-parses the whole file iff the
file's modification time differs from the stored token — even when the
decoded content is identical — and is a no-op otherwise. -/
theorem c6_snapshot_freshness (j : Json) (m : ℚ)
    (snap : List (String × List Question)) (st : QState)
    (hj : decodeQuestions j = some snap) :
    (m ≠ st.mtime →
      hotReload (.parsed j m) st = .ok ⟨snap, m, st.loadCount + 1⟩)
    ∧ (m = st.mtime → hotReload (.parsed j m) st = .ok st) := by
  constructor
  · intro hne
    simp [hotReload, hne, loadQuestions, hj]
  · intro heq
    simp [hotReload, heq]

/-- Witness for C6: a touched modification time (2 vs stored 1) forces a
reparse of byte-identical content — the load counter moves from 5 to 6 —
while an unchanged modification time leaves the state alone. -/
theorem c6_snapshot_freshness_witness :
    (hotReload
        (.parsed (.obj [("dev", .arr [.obj [("id", .str "q1"),
          ("role", .str "dev"), ("text", .str "What is a closure?")]])]) 2)
        ⟨[("dev", [⟨"q1", "dev", "What is a closure?", none, none⟩])], 1, 5⟩ =
      .ok ⟨[("dev", [⟨"q1", "dev", "What is a closure?", none, none⟩])], 2, 6⟩)
    ∧ (hotReload
        (.parsed (.obj [("dev", .arr [.obj [("id", .str "q1"),
          ("role", .str "dev"), ("text", .str "What is a closure?")]])]) 1)
        ⟨[("dev", [⟨"q1", "dev", "What is a closure?", none, none⟩])], 1, 5⟩ =
      .ok ⟨[("dev", [⟨"q1", "dev", "What is a closure?", none, none⟩])], 1, 5⟩) := by
  constructor
  · exact (c6_snapshot_freshness
      (.obj [("dev", .arr [.obj [("id", .str "q1"), ("role", .str "dev"),
        ("text", .str "What is a closure?")]])])
      2 [("dev", [⟨"q1", "dev", "What is a closure?", none, none⟩])]
      ⟨[("dev", [⟨"q1", "dev", "What is a closure?", none, none⟩])], 1, 5⟩
      (by rfl)).1 (by norm_num)
  · exact (c6_snapshot_freshness
      (.obj [("dev", .arr [.obj [("id", .str "q1"), ("role", .str "dev"),
        ("text", .str "What is a closure?")]])])
      1 [("dev", [⟨"q1", "dev", "What is a closure?", none, none⟩])]
      ⟨[("dev", [⟨"q1", "dev", "What is a closure?", none, none⟩])], 1, 5⟩
      (by rfl)).2 rfl

/-- C7: stale-serve on missing source.  After a snapshot is in memory, a
freshness check that finds the file absent raises nothing and leaves the
in-memory snapshot served unchanged; the first-time load (`startup` calls
`load_questions_from_disk` unguarded) with a missing file fails. -/
theorem c7_snapshot_stale_serve (st : QState) :
    hotReload .absent st = .ok st
    ∧ loadQuestions .absent st = .error .fileNotFound :=
  ⟨rfl, rfl⟩

/-! ## Atomic replace with retry (`_replace_with_retry`, main.py 218-227)

`os.replace` is a foreign call; one invocation is abstracted by its
outcome.  Only `PermissionError` is caught and retried; the loop sleeps
`delay * (i + 1)` seconds after the `i`-th failed guarded attempt, and a
final unguarded `os.replace` runs after the loop. -/

inductive ReplaceOutcome where
  | ok
  | permErr
  | otherErr
deriving DecidableEq

/-- Result of `_replace_with_retry`: either it returned, or an exception
propagated to the caller; in both cases we record the backoff sleeps
performed. -/
inductive RetryResult where
  | success (sleeps : List ℚ)
  | raised (sleeps : List ℚ)
deriving DecidableEq

/-- The `for i in range(attempts)` loop body plus the final unguarded
`os.replace`.  `i` is the current loop index, `remaining` the iterations
left, `acc` the sleeps performed so far. -/
def retryLoop (outcome : ℕ → ReplaceOutcome) (delay : ℚ) :
    ℕ → ℕ → List ℚ → RetryResult
  | i, 0, acc =>
      match outcome i with
      | .ok => .success acc
      | _ => .raised acc
  | i, r + 1, acc =>
      match outcome i with
      | .ok => .success acc
      | .permErr => retryLoop outcome delay (i + 1) r (acc ++ [delay * ((i : ℚ) + 1)])
      | .otherErr => .raised acc

/-- `_replace_with_retry(src, dst, attempts=8, delay=0.2)`, with the
`i`-th `os.replace` call's outcome supplied by `outcome i`. -/
def replaceWithRetry (outcome : ℕ → ReplaceOutcome)
    (attempts : ℕ := 8) (delay : ℚ := 1/5) : RetryResult :=
  retryLoop outcome delay 0 attempts []

/-- If the first `k` attempts fail with `PermissionError` and attempt `k`
succeeds, the loop returns successfully after sleeping
`delay*(i+1)` for `i = start..start+k-1`. -/
theorem retryLoop_first_ok (outcome : ℕ → ReplaceOutcome) (delay : ℚ)
    (k : ℕ) :
    ∀ (i remaining : ℕ) (acc : List ℚ), k ≤ remaining →
    (∀ j, j < k → outcome (i + j) = .permErr) → outcome (i + k) = .ok →
    retryLoop outcome delay i remaining acc =
      .success (acc ++ (List.range' i k).map (fun j => delay * ((j : ℚ) + 1))) := by
  induction k with
  | zero =>
      intro i remaining acc _ _ hk
      simp only [Nat.add_zero] at hk
      cases remaining <;> simp [retryLoop, hk]
  | succ k ih =>
      intro i remaining acc hle hperm hk
      obtain ⟨r, rfl⟩ : ∃ r, remaining = r + 1 := ⟨remaining - 1, by omega⟩
      have h0 : outcome i = .permErr := by simpa using hperm 0 (by omega)
      rw [retryLoop, h0]
      have := ih (i + 1) r (acc ++ [delay * ((i : ℚ) + 1)]) (by omega)
        (fun j hj => by
          have := hperm (j + 1) (by omega)
          simpa [Nat.add_assoc, Nat.add_comm 1 j] using this)
        (by
          have : i + 1 + k = i + (k + 1) := by omega
          rw [this]; exact hk)
      rw [this, List.range'_succ]
      simp

/-- If all `remaining` guarded attempts fail with `PermissionError`, the
final unguarded attempt decides the result, after linear-backoff sleeps
for every guarded attempt. -/
theorem retryLoop_all_perm (outcome : ℕ → ReplaceOutcome) (delay : ℚ)
    (remaining : ℕ) :
    ∀ (i : ℕ) (acc : List ℚ),
    (∀ j, j < remaining → outcome (i + j) = .permErr) →
    retryLoop outcome delay i remaining acc =
      (match outcome (i + remaining) with
       | .ok => RetryResult.success
       | _ => RetryResult.raised)
      (acc ++ (List.range' i remaining).map (fun j => delay * ((j : ℚ) + 1))) := by
  induction remaining with
  | zero =>
      intro i acc _
      simp only [Nat.add_zero, List.range', List.map_nil, List.append_nil]
      cases h : outcome i <;> simp [retryLoop, h]
  | succ r ih =>
      intro i acc hperm
      have h0 : outcome i = .permErr := by simpa using hperm 0 (by omega)
      rw [retryLoop, h0]
      have := ih (i + 1) (acc ++ [delay * ((i : ℚ) + 1)])
        (fun j hj => by
          have := hperm (j + 1) (by omega)
          simpa [Nat.add_assoc, Nat.add_comm 1 j] using this)
      rw [this, List.range'_succ]
      have : i + 1 + r = i + (r + 1) := by omega
      rw [this]
      cases houtcome : outcome (i + (r + 1)) <;> simp

/-- C5 counterexample: the backoff of `_replace_with_retry` is not
exponential.  With every attempt failing with `PermissionError` at the
default `attempts=8, delay=0.2`, the sleeps performed are
`0.2, 0.4, 0.6, ..., 1.6` — an arithmetic progression, which no
geometric ratio fits (0.4/0.2 = 2 but 0.6/0.4 = 1.5). -/
theorem c5_replace_retry_counterexample :
    replaceWithRetry (fun _ => .permErr) 8 (1/5) =
      .raised [1/5, 2/5, 3/5, 4/5, 1, 6/5, 7/5, 8/5]
    ∧ ¬ ∃ r : ℚ, ∀ i : ℕ, i < 7 →
        [(1 : ℚ)/5, 2/5, 3/5, 4/5, 1, 6/5, 7/5, 8/5].getD (i + 1) 0 =
          r * [(1 : ℚ)/5, 2/5, 3/5, 4/5, 1, 6/5, 7/5, 8/5].getD i 0 := by
  constructor
  · rw [replaceWithRetry,
      retryLoop_all_perm (fun _ => .permErr) (1/5) 8 0 [] (fun _ _ => rfl)]
    norm_num [List.range']
  · rintro ⟨r, hr⟩
    have h0 := hr 0 (by norm_num)
    have h1 := hr 1 (by norm_num)
    simp only [List.getD, List.get?] at h0 h1
    norm_num at h0 h1
    have hr2 : r = 2 := by linarith
    rw [hr2] at h1
    norm_num at h1

/-- C5 (amended): on transient `PermissionError`, `_replace_with_retry`
retries with *linearly* increasing backoff `delay * (try index + 1)` for
`attempts = 8` guarded tries; if one succeeds it returns, and only after
all eight fail does a ninth, unguarded try run, whose failure propagates
to the caller. -/
theorem c5_replace_retry_linear_backoff (outcome : ℕ → ReplaceOutcome)
    (delay : ℚ) :
    (∀ k, k ≤ 8 → (∀ j, j < k → outcome j = .permErr) → outcome k = .ok →
      replaceWithRetry outcome 8 delay =
        .success ((List.range k).map (fun j => delay * ((j : ℚ) + 1))))
    ∧ ((∀ j, j < 8 → outcome j = .permErr) → outcome 8 ≠ .ok →
      replaceWithRetry outcome 8 delay =
        .raised ((List.range 8).map (fun j => delay * ((j : ℚ) + 1)))) := by
  have hr : ∀ n, List.range n = List.range' 0 n := fun n => List.range_eq_range' n
  constructor
  · intro k hk hperm hok
    rcases Nat.lt_or_ge k 8 with hlt | hge
    · rw [replaceWithRetry,
        retryLoop_first_ok outcome delay k 0 8 [] (by omega)
          (fun j hj => by simpa using hperm j hj) (by simpa using hok)]
      simp [hr]
    · have hk8 : k = 8 := by omega
      subst hk8
      rw [replaceWithRetry,
        retryLoop_all_perm outcome delay 8 0 [] (fun j hj => by simpa using hperm j hj)]
      simp only [Nat.zero_add, hok]
      simp [hr]
  · intro hperm hfail
    rw [replaceWithRetry,
      retryLoop_all_perm outcome delay 8 0 [] (fun j hj => by simpa using hperm j hj)]
    simp only [Nat.zero_add]
    cases h8 : outcome 8 with
    | ok => exact absurd h8 hfail
    | permErr => simp [hr]
    | otherErr => simp [hr]

/-- Witness for C5 (amended): two busy tries then a success gives the
sleep sequence `0.2, 0.4`. -/
theorem c5_replace_retry_linear_backoff_witness :
    replaceWithRetry (fun i => if i < 2 then .permErr else .ok) 8 (1/5) =
      .success [1/5, 2/5] := by
  rw [(c5_replace_retry_linear_backoff (fun i => if i < 2 then .permErr else .ok)
      (1/5)).1 2 (by omega) (fun j hj => by simp [hj]) (by simp)]
  norm_num [List.range_succ]

/-! ## Python `datetime` (`_parse_dt` / `_to_iso_z`, main.py 190-215)

A `datetime` is civil fields plus an optional UTC offset in seconds
(`None` = timezone-naive).  `datetime.fromisoformat` (Python 3.11+) is
modelled by an executable parser for the subset of its grammar this
program emits and consumes: `YYYY-MM-DD[<sep>HH:MM:SS[.f{1..}][Z|±HH:MM]]`;
`isoformat` by the matching printer. -/

structure Civil where
  year : ℕ
  month : ℕ
  day : ℕ
  hour : ℕ
  minute : ℕ
  second : ℕ
  micro : ℕ
deriving DecidableEq

structure PyDateTime where
  civil : Civil
  off : Option Int
deriving DecidableEq

def isLeap (y : ℕ) : Bool :=
  y % 4 = 0 && (y % 100 ≠ 0 || y % 400 = 0)

def daysInMonth (y m : ℕ) : ℕ :=
  if m = 2 then (if isLeap y then 29 else 28)
  else if m = 4 ∨ m = 6 ∨ m = 9 ∨ m = 11 then 30
  else 31

/-- The range checks `datetime.__new__` enforces (year 1..9999 etc.). -/
def CivilOk (c : Civil) : Prop :=
  1 ≤ c.year ∧ c.year ≤ 9999 ∧ 1 ≤ c.month ∧ c.month ≤ 12 ∧
  1 ≤ c.day ∧ c.day ≤ daysInMonth c.year c.month ∧
  c.hour ≤ 23 ∧ c.minute ≤ 59 ∧ c.second ≤ 59 ∧ c.micro ≤ 999999

instance (c : Civil) : Decidable (CivilOk c) := by
  unfold CivilOk; infer_instance

def digitVal? (c : Char) : Option ℕ :=
  if c.isDigit then some (c.toNat - 48) else none

/-- Two decimal digits. -/
def rd2 : List Char → Option (ℕ × List Char)
  | a :: b :: rest =>
      match digitVal? a, digitVal? b with
      | some x, some y => some (10 * x + y, rest)
      | _, _ => none
  | _ => none

/-- Four decimal digits. -/
def rd4 : List Char → Option (ℕ × List Char)
  | a :: b :: c :: d :: rest =>
      match digitVal? a, digitVal? b, digitVal? c, digitVal? d with
      | some w, some x, some y, some z =>
          some (1000 * w + 100 * x + 10 * y + z, rest)
      | _, _, _, _ => none
  | _ => none

def expectChar (c : Char) : List Char → Option (List Char)
  | x :: r => if x = c then some r else none
  | [] => none

/-- Greedy run of decimal digits. -/
def rdDigitRun : List Char → List ℕ × List Char
  | [] => ([], [])
  | c :: rest =>
      match digitVal? c with
      | some d =>
          let p := rdDigitRun rest
          (d :: p.1, p.2)
      | none => ([], c :: rest)

/-- Optional fractional seconds: `.` plus at least one digit; digits past
the sixth are truncated (Python 3.11+ behaviour). -/
def parseFrac : List Char → Option (ℕ × List Char)
  | c :: rest =>
      if c = '.' then
        let p := rdDigitRun rest
        if p.1.length = 0 then none
        else
          let ds := p.1.take 6
          some (ds.foldl (fun a d => a * 10 + d) 0 * 10 ^ (6 - ds.length), p.2)
      else some (0, c :: rest)
  | [] => some (0, [])

/-- Trailing UTC offset: nothing (naive), `Z`/`z`, or `±HH:MM`
(result in seconds); anything else is a parse error. -/
def parseOffsetEnd : List Char → Option (Option Int)
  | [] => some none
  | ['Z'] => some (some 0)
  | ['z'] => some (some 0)
  | c :: rest =>
      if c = '+' ∨ c = '-' then do
        let p1 ← rd2 rest
        let r2 ← expectChar ':' p1.2
        let p3 ← rd2 r2
        if p3.2 = [] ∧ p1.1 ≤ 23 ∧ p3.1 ≤ 59 then
          some (some ((if c = '-' then -1 else 1) * ((p1.1 : Int) * 3600 + p3.1 * 60)))
        else none
      else none

/-- `datetime.fromisoformat` on the grammar subset above.  A date with no
time part parses to midnight; the date/time separator may be any single
character (Python 3.11+). -/
def fromisoChars (l : List Char) : Option PyDateTime := do
  let py ← rd4 l
  let r2 ← expectChar '-' py.2
  let pm ← rd2 r2
  let r4 ← expectChar '-' pm.2
  let pd ← rd2 r4
  match pd.2 with
  | [] =>
      let c : Civil := ⟨py.1, pm.1, pd.1, 0, 0, 0, 0⟩
      if CivilOk c then some ⟨c, none⟩ else none
  | _sep :: r6 => do
      let ph ← rd2 r6
      let r8 ← expectChar ':' ph.2
      let pmi ← rd2 r8
      let r10 ← expectChar ':' pmi.2
      let ps ← rd2 r10
      let pf ← parseFrac ps.2
      let off ← parseOffsetEnd pf.2
      let c : Civil := ⟨py.1, pm.1, pd.1, ph.1, pmi.1, ps.1, pf.1⟩
      if CivilOk c then some ⟨c, off⟩ else none

def digitChar (n : ℕ) : Char := Char.ofNat (48 + n % 10)

def pad2 (n : ℕ) : List Char := [digitChar (n / 10), digitChar n]

def pad4 (n : ℕ) : List Char :=
  [digitChar (n / 1000), digitChar (n / 100), digitChar (n / 10), digitChar n]

def pad6 (n : ℕ) : List Char :=
  [digitChar (n / 100000), digitChar (n / 10000), digitChar (n / 1000),
   digitChar (n / 100), digitChar (n / 10), digitChar n]

/-- `datetime.isoformat()` without the offset suffix: the microsecond
field is printed (as six digits) only when nonzero. -/
def renderCivilChars (c : Civil) : List Char :=
  pad4 c.year ++ '-' :: (pad2 c.month ++ '-' :: (pad2 c.day ++ 'T' ::
    (pad2 c.hour ++ ':' :: (pad2 c.minute ++ ':' ::
      (pad2 c.second ++ (if c.micro = 0 then [] else '.' :: pad6 c.micro))))))

/-! Epoch conversions (Howard Hinnant's civil-date algorithms), used by
`astimezone` for nonzero offsets and by pydantic's numeric-timestamp
decoding.  They are executable models of foreign arithmetic; no theorem
in this file rests on their internals. -/

def daysFromCivil (y m d : Int) : Int :=
  let y' := if m ≤ 2 then y - 1 else y
  let era := Int.fdiv y' 400
  let yoe := y' - era * 400
  let mp := Int.emod (m + 9) 12
  let doy := (153 * mp + 2) / 5 + d - 1
  let doe := yoe * 365 + yoe / 4 - yoe / 100 + doy
  era * 146097 + doe - 719468

def civilFromDays (z : Int) : Int × Int × Int :=
  let z' := z + 719468
  let era := Int.fdiv z' 146097
  let doe := z' - era * 146097
  let yoe := (doe - doe / 1460 + doe / 36524 - doe / 146096) / 365
  let y := yoe + era * 400
  let doy := doe - (365 * yoe + yoe / 4 - yoe / 100)
  let mp := (5 * doy + 2) / 153
  let d := doy - (153 * mp + 2) / 5 + 1
  let m := mp + (if mp < 10 then 3 else -9)
  (y + (if m ≤ 2 then 1 else 0), m, d)

/-- Microseconds since the Unix epoch of the civil fields read as UTC. -/
def wallEpochMicros (c : Civil) : Int :=
  (daysFromCivil c.year c.month c.day * 86400 +
    (c.hour : Int) * 3600 + c.minute * 60 + c.second) * 1000000 + c.micro

/-- Civil fields of a UTC instant given in epoch microseconds.  (Python
raises for years outside 1..9999; the clamp below is never exercised.) -/
def civilFromEpochMicros (t : Int) : Civil :=
  let us := Int.emod t 1000000
  let secs := Int.fdiv t 1000000
  let sod := Int.emod secs 86400
  let days := Int.fdiv secs 86400
  let ymd := civilFromDays days
  ⟨ymd.1.toNat, ymd.2.1.toNat, ymd.2.2.toNat,
   (sod / 3600).toNat, (sod % 3600 / 60).toNat, (sod % 60).toNat, us.toNat⟩

/-- `dt.replace(tzinfo=utc)` for naive input, `dt.astimezone(utc)` for
aware input (which keeps the civil fields whenever the offset is already
zero). -/
def toUtc (dt : PyDateTime) : PyDateTime :=
  match dt.off with
  | none => ⟨dt.civil, some 0⟩
  | some o =>
      if o = 0 then ⟨dt.civil, some 0⟩
      else ⟨civilFromEpochMicros (wallEpochMicros dt.civil - o * 1000000), some 0⟩

/-- `dt.isoformat().replace("+00:00", "Z")` applied after conversion to
UTC: the offset suffix is always `+00:00`, which the replace rewrites to
`Z` (the body holds only digits and `-T:.`,  so no other occurrence
exists). -/
def toIsoZdt (dt : PyDateTime) : String :=
  String.mk (renderCivilChars (toUtc dt).civil ++ ['Z'])

/-- Python `str.strip()` whitespace (space, tab, newline, CR, vertical
tab, form feed). -/
def isPySpace (c : Char) : Bool :=
  c = ' ' || c = '\t' || c = '\n' || c = '\r' ||
  c = Char.ofNat 11 || c = Char.ofNat 12

/-- Python `s.strip()`. -/
def stripChars (l : List Char) : List Char :=
  ((l.dropWhile isPySpace).reverse.dropWhile isPySpace).reverse

/-- Python `s.endswith("Z")`. -/
def lastIsZ (l : List Char) : Bool :=
  match l.getLast? with
  | some c => c = 'Z'
  | none => false

/-- `_parse_dt` on a string: strip, rewrite a trailing `Z` to `+00:00`,
then `datetime.fromisoformat`. -/
def parseDtStr (s : String) : Option PyDateTime :=
  let t := stripChars s.toList
  let t2 := if lastIsZ t then t.dropLast ++ "+00:00".toList else t
  fromisoChars t2

/-- `_parse_dt` on a JSON-decoded value: only strings can parse
(decoded JSON never holds `datetime` objects). -/
def parseDtJson : Json → Option PyDateTime
  | .str s => parseDtStr s
  | _ => none

/-- Python `repr` for JSON-decoded values (containers shown with Python
syntax; string escaping approximated).  Exercised only at numbers. -/
def pyRepr : Json → String
  | .str s => "'" ++ s ++ "'"
  | .num n => toString n
  | .bool true => "True"
  | .bool false => "False"
  | .null => "None"
  | .arr es => "[" ++ String.intercalate ", " (es.attach.map fun e => pyRepr e.1) ++ "]"
  | .obj kvs =>
      "\x7b" ++
        String.intercalate ", "
          (kvs.attach.map fun kv => "'" ++ kv.1.1 ++ "': " ++ pyRepr kv.1.2) ++
      "\x7d"
decreasing_by
  · have h := List.sizeOf_lt_of_mem e.2
    simp only [Json.arr.sizeOf_spec]
    omega
  · have h := List.sizeOf_lt_of_mem kv.2
    obtain ⟨⟨k, v⟩, hm⟩ := kv
    simp only [Prod.mk.sizeOf_spec] at h
    simp only [Json.obj.sizeOf_spec]
    omega

/-- Python `str()` of a JSON-decoded value (`str` and `repr` agree on
numbers, booleans and `None`; containers delegate to `repr`). -/
def pyStr : Json → String
  | .str s => s
  | .num n => toString n
  | .bool true => "True"
  | .bool false => "False"
  | .null => "None"
  | v => pyRepr v

/-- `_to_iso_z` on a JSON-decoded value: parseable strings are
re-rendered canonically in UTC with a `Z` suffix; anything else falls
back to `str(val)`. -/
def toIsoZjson (v : Json) : Json :=
  .str (match parseDtJson v with
        | some dt => toIsoZdt dt
        | none => pyStr v)

/-- Python `==` on datetimes: naive compare by fields, aware compare by
instant, mixed naive/aware compare unequal. -/
def pyDtEq (a b : PyDateTime) : Bool :=
  match a.off, b.off with
  | none, none => decide (a.civil = b.civil)
  | some o1, some o2 =>
      decide (wallEpochMicros a.civil - o1 * 1000000 =
              wallEpochMicros b.civil - o2 * 1000000)
  | _, _ => false

/-! Printer/parser round trip: the canonical UTC rendering re-parses to
the same datetime.  This is the heart of the append/read round-trip. -/

theorem digitVal_ofNat (k : ℕ) (h : k < 10) :
    digitVal? (Char.ofNat (48 + k)) = some k := by
  interval_cases k <;> decide

theorem digitVal_digitChar (m : ℕ) :
    digitVal? (digitChar m) = some (m % 10) :=
  digitVal_ofNat (m % 10) (Nat.mod_lt _ (by omega))

theorem rd2_pad2 (n : ℕ) (rest : List Char) :
    rd2 (pad2 n ++ rest) = some (n % 100, rest) := by
  simp only [pad2, List.cons_append, List.nil_append, rd2, digitVal_digitChar]
  norm_num
  omega

theorem rd4_pad4 (n : ℕ) (rest : List Char) :
    rd4 (pad4 n ++ rest) = some (n % 10000, rest) := by
  simp only [pad4, List.cons_append, List.nil_append, rd4, digitVal_digitChar]
  norm_num
  omega

theorem expectChar_same (c : Char) (r : List Char) :
    expectChar c (c :: r) = some r := by
  simp [expectChar]

theorem rdDigitRun_stop (c : Char) (l : List Char) (hc : digitVal? c = none) :
    rdDigitRun (c :: l) = ([], c :: l) := by
  simp [rdDigitRun, hc]

theorem rdDigitRun_pad6 (m : ℕ) (c : Char) (l : List Char)
    (hc : digitVal? c = none) :
    rdDigitRun (pad6 m ++ c :: l) =
      ([m / 100000 % 10, m / 10000 % 10, m / 1000 % 10,
        m / 100 % 10, m / 10 % 10, m % 10], c :: l) := by
  simp [pad6, rdDigitRun, digitVal_digitChar, hc]

theorem parseFrac_pad6 (m : ℕ) (c : Char) (l : List Char)
    (hc : digitVal? c = none) :
    parseFrac ('.' :: (pad6 m ++ c :: l)) = some (m % 1000000, c :: l) := by
  rw [parseFrac, if_pos rfl, rdDigitRun_pad6 m c l hc]
  norm_num [List.foldl]
  omega

theorem parseFrac_nodot (c : Char) (l : List Char) (hc : c ≠ '.') :
    parseFrac (c :: l) = some (0, c :: l) := by
  rw [parseFrac, if_neg hc]

theorem someBind {α β : Type} (a : α) (f : α → Option β) :
    ((some a : Option α) >>= f) = f a := rfl

theorem civil_day_le (c : Civil) (h : CivilOk c) : c.day ≤ 31 := by
  obtain ⟨-, -, -, -, -, hd, -⟩ := h
  have : daysInMonth c.year c.month ≤ 31 := by
    unfold daysInMonth
    split <;> [split <;> omega; skip]
    split <;> omega
  omega

/-- The canonical rendering `YYYY-MM-DDTHH:MM:SS[.ffffff]Z` of valid
civil fields parses back to exactly those fields with a zero offset. -/
theorem fromiso_renderZ (c : Civil) (h : CivilOk c) :
    fromisoChars (renderCivilChars c ++ ['Z']) = some ⟨c, some 0⟩ := by
  have hday := civil_day_le c h
  obtain ⟨y, mo, d, hr, mi, s, us⟩ := c
  obtain ⟨hy1, hy2, hm1, hm2, hd1, hd2, hh, hmi, hs, hus⟩ := h
  simp only [] at hday hy1 hy2 hm1 hm2 hd1 hd2 hh hmi hs hus
  have ey : y % 10000 = y := Nat.mod_eq_of_lt (by omega)
  have em : mo % 100 = mo := Nat.mod_eq_of_lt (by omega)
  have ed : d % 100 = d := Nat.mod_eq_of_lt (by omega)
  have eh : hr % 100 = hr := Nat.mod_eq_of_lt (by omega)
  have emi : mi % 100 = mi := Nat.mod_eq_of_lt (by omega)
  have es : s % 100 = s := Nat.mod_eq_of_lt (by omega)
  have eus : us % 1000000 = us := Nat.mod_eq_of_lt (by omega)
  have hok : CivilOk ⟨y, mo, d, hr, mi, s, us⟩ :=
    ⟨hy1, hy2, hm1, hm2, hd1, hd2, hh, hmi, hs, hus⟩
  have pfZ : parseFrac ['Z'] = some (0, ['Z']) := parseFrac_nodot 'Z' [] (by decide)
  have poZ : parseOffsetEnd ['Z'] = some (some 0) := rfl
  by_cases hz : us = 0
  · subst hz
    simp only [renderCivilChars, List.append_assoc, List.cons_append,
      List.nil_append, List.append_nil, if_pos rfl]
    simp only [if_true, ite_true, List.nil_append, fromisoChars, rd4_pad4,
      rd2_pad2, expectChar_same, someBind, pfZ, poZ, ey, em, ed, eh, emi, es]
    rw [if_pos hok]
  · simp only [renderCivilChars, List.append_assoc, List.cons_append,
      List.nil_append, List.append_nil, if_neg hz]
    have pf6 : parseFrac ('.' :: (pad6 us ++ ['Z'])) =
        some (us % 1000000, ['Z']) := parseFrac_pad6 us 'Z' [] (by decide)
    simp only [fromisoChars, rd4_pad4, rd2_pad2, expectChar_same,
      someBind, pf6, poZ, ey, em, ed, eh, emi, es, eus]
    rw [if_pos hok]

/-! ## Attempts store (JSONL)

`_append_attempt_jsonl` / `_read_attempts_jsonl` / `_rewrite_attempts_jsonl`
and the `delete_attempt` endpoint (main.py 339-403, 783-797).  A physical
line is abstracted by the outcome of `strip()` + `json.loads` on it. -/

/-- `app.models.Attempt` (pydantic model). -/
structure Attempt where
  id : String
  role : String
  score : Int
  duration_min : Int
  date : PyDateTime
  difficulty : Option String
deriving DecidableEq

/-- The pydantic field constraints on `Attempt`. -/
def AttemptOk (a : Attempt) : Prop :=
  1 ≤ a.role.length ∧ 0 ≤ a.score ∧ a.score ≤ 100 ∧
  1 ≤ a.duration_min ∧ a.duration_min ≤ 240 ∧
  (a.difficulty = none ∨ a.difficulty = some "easy" ∨
   a.difficulty = some "medium" ∨ a.difficulty = some "hard")

/-- `a.model_dump()` with `rec["date"] = _to_iso_z(rec["date"])` applied,
in pydantic field order (parent fields first, then `id`), as serialized by
`_append_attempt_jsonl`. -/
def encKvs (a : Attempt) : List (String × Json) :=
  [("role", .str a.role), ("score", .num a.score),
   ("duration_min", .num a.duration_min),
   ("date", .str (toIsoZdt a.date)),
   ("difficulty", match a.difficulty with
                  | none => Json.null
                  | some d => .str d),
   ("id", .str a.id)]

def encodeAttempt (a : Attempt) : Json := .obj (encKvs a)

def getInt? (kvs : List (String × Json)) (k : String) : Option Int :=
  match Json.lookup kvs k with
  | some (.num n) => some n
  | _ => none

/-- pydantic's `datetime` coercion: ISO-8601 strings (`Z` accepted), or a
numeric Unix timestamp (decoded as a UTC instant). -/
def pydanticDt : Json → Option PyDateTime
  | .str s => fromisoChars s.toList
  | .num n => some ⟨civilFromEpochMicros (n * 1000000), some 0⟩
  | _ => none

/-- `Attempt(**rec)`: pydantic validation (extra keys ignored, missing
`difficulty` defaults to `None`). -/
def decodeAttempt (kvs : List (String × Json)) : Option Attempt := do
  let id ← getStr? kvs "id"
  let role ← getStr? kvs "role"
  if role.length = 0 then none else do
  let score ← getInt? kvs "score"
  if score < 0 ∨ 100 < score then none else do
  let dm ← getInt? kvs "duration_min"
  if dm < 1 ∨ 240 < dm then none else do
  let dv ← Json.lookup kvs "date"
  let date ← pydanticDt dv
  let diff ← getOptStr? kvs "difficulty"
  match diff with
  | none => some ⟨id, role, score, dm, date, none⟩
  | some d =>
      if d = "easy" ∨ d = "medium" ∨ d = "hard" then
        some ⟨id, role, score, dm, date, some d⟩
      else none

/-- One stripped line of a store file, abstracted by its `json.loads`
outcome: empty after strip, undecodable, or a decoded JSON value. -/
inductive RawLine where
  | blank
  | malformed
  | json (j : Json)

/-- The `_read_attempts_jsonl` loop body for one line: skip blanks; any
exception (decode failure, `.get` on a non-dict, pydantic validation)
skips the line; a truthy `role` filter drops non-matching records before
validation. -/
def readLine (roleFilter : Option String) (l : RawLine) : Option Attempt :=
  match l with
  | .json (.obj kvs) =>
      match roleFilter with
      | none => decodeAttempt kvs
      | some r =>
          if r = "" then decodeAttempt kvs
          else
            match Json.lookup kvs "role" with
            | some (.str rv) => if rv = r then decodeAttempt kvs else none
            | _ => none
  | _ => none

/-- `_read_attempts_jsonl(limit, role)`: decode in file order, then
`out[::-1][:limit]` — newest first, at most `limit`. -/
def readAttempts (limit : ℕ) (roleFilter : Option String)
    (lines : List RawLine) : List Attempt :=
  ((lines.filterMap (readLine roleFilter)).reverse).take limit

/-- `_append_attempt_jsonl`: serialize (date normalized to ISO-Z) and
append one line under the store lock. -/
def appendAttempt (a : Attempt) (lines : List RawLine) : List RawLine :=
  lines ++ [.json (encodeAttempt a)]

inductive PyErr where
  | typeError
deriving DecidableEq

/-- The date-normalization block of `_rewrite_attempts_jsonl` on a dict
the transform returned: re-normalize an existing `date`, else stamp
`now`. -/
def normalizeDateKvs (now : PyDateTime) (kvs : List (String × Json)) :
    List (String × Json) :=
  match Json.lookup kvs "date" with
  | some v => Json.setKey kvs "date" (toIsoZjson v)
  | none => Json.setKey kvs "date" (.str (toIsoZdt now))

/-- `_rewrite_attempts_jsonl(transform)`: stream every line, skipping
blanks and undecodable lines; apply `transform` to each decoded value;
drop `None` results; a non-dict survivor raises `TypeError` at the date
assignment (uncaught — the temp file is abandoned and the original file
is left in place); on success the file is atomically replaced and the
count of written records returned. -/
def rewriteAttempts (transform : Json → Option Json) (now : PyDateTime) :
    List RawLine → Except PyErr (List RawLine × ℕ)
  | [] => .ok ([], 0)
  | .blank :: rest => rewriteAttempts transform now rest
  | .malformed :: rest => rewriteAttempts transform now rest
  | .json j :: rest =>
      match transform j with
      | none => rewriteAttempts transform now rest
      | some (.obj kvs) => do
          let p ← rewriteAttempts transform now rest
          .ok (.json (.obj (normalizeDateKvs now kvs)) :: p.1, p.2 + 1)
      | some _ => .error .typeError

/-- The transform `delete_attempt` passes to the rewriter: drop the dict
whose `id` equals the target, pass everything else through unchanged. -/
def delTransform (aid : String) (j : Json) : Option Json :=
  match j with
  | .obj kvs =>
      match Json.lookup kvs "id" with
      | some (.str s) => if s = aid then none else some j
      | _ => some j
  | _ => some j

/-- Whether a line is the record `delete_attempt` is looking for
(this is what sets its `found` flag). -/
def matchesId (aid : String) : RawLine → Bool
  | .json (.obj kvs) =>
      match Json.lookup kvs "id" with
      | some (.str s) => decide (s = aid)
      | _ => false
  | _ => false

inductive DeleteOutcome where
  | deleted
  | notFound
  | typeErrorRaised
deriving DecidableEq

/-- `delete_attempt(attempt_id)`: run the rewrite; if it raises, the
error propagates (HTTP 500) and the file is untouched; otherwise the
file has been replaced, and a 404 is raised afterwards when no record
matched. -/
def deleteAttempt (now : PyDateTime) (aid : String) (lines : List RawLine) :
    DeleteOutcome × List RawLine :=
  match rewriteAttempts (delTransform aid) now lines with
  | .error _ => (.typeErrorRaised, lines)
  | .ok (newLines, _) =>
      if lines.any (matchesId aid) then (.deleted, newLines)
      else (.notFound, newLines)

/-- Python `==` on two `Attempt` models: fieldwise equality, with
datetime equality as Python defines it. -/
def pyAttemptEq (a b : Attempt) : Bool :=
  a.id == b.id && a.role == b.role && a.score == b.score &&
  a.duration_min == b.duration_min && pyDtEq a.date b.date &&
  decide (a.difficulty = b.difficulty)

instance (a : Attempt) : Decidable (AttemptOk a) := by
  unfold AttemptOk; infer_instance

/-- Decoding an appended record recovers it exactly, provided its fields
pass validation and its date is aware UTC (as the server itself stamps
with `datetime.now(timezone.utc)`). -/
theorem decode_encode (a : Attempt) (hok : AttemptOk a)
    (hoff : a.date.off = some 0) (hciv : CivilOk a.date.civil) :
    decodeAttempt (encKvs a) = some a := by
  obtain ⟨aid, arole, ascore, adm, adate, adiff⟩ := a
  obtain ⟨adc, adoff⟩ := adate
  obtain ⟨hrole, hs0, hs100, hd1, hd240, hdiff⟩ := hok
  dsimp only at hrole hs0 hs100 hd1 hd240 hdiff hoff hciv
  subst hoff
  have hid : getStr? (encKvs ⟨aid, arole, ascore, adm, ⟨adc, some 0⟩, adiff⟩)
      "id" = some aid := rfl
  have hro : getStr? (encKvs ⟨aid, arole, ascore, adm, ⟨adc, some 0⟩, adiff⟩)
      "role" = some arole := rfl
  have hsc : getInt? (encKvs ⟨aid, arole, ascore, adm, ⟨adc, some 0⟩, adiff⟩)
      "score" = some ascore := rfl
  have hdm2 : getInt? (encKvs ⟨aid, arole, ascore, adm, ⟨adc, some 0⟩, adiff⟩)
      "duration_min" = some adm := rfl
  have hdt : Json.lookup (encKvs ⟨aid, arole, ascore, adm, ⟨adc, some 0⟩, adiff⟩)
      "date" = some (.str (toIsoZdt ⟨adc, some 0⟩)) := rfl
  have ht : toUtc ⟨adc, some 0⟩ = ⟨adc, some 0⟩ := by simp [toUtc]
  have hpd : pydanticDt (.str (toIsoZdt ⟨adc, some 0⟩)) = some ⟨adc, some 0⟩ := by
    show fromisoChars (toIsoZdt (⟨adc, some 0⟩ : PyDateTime)).toList = _
    rw [toIsoZdt, ht]
    exact fromiso_renderZ adc hciv
  have hod : getOptStr? (encKvs ⟨aid, arole, ascore, adm, ⟨adc, some 0⟩, adiff⟩)
      "difficulty" = some adiff := by
    rcases hdiff with h | h | h | h <;> subst h <;> rfl
  simp only [decodeAttempt, hid, hro, hsc, hdm2, hdt, hpd, hod, someBind]
  rw [if_neg (by omega), if_neg (by omega), if_neg (by omega)]
  rcases hdiff with h | h | h | h <;> subst h
  · rfl
  · show (if "easy" = "easy" ∨ "easy" = "medium" ∨ "easy" = "hard"
        then _ else none) = _
    rw [if_pos (Or.inl rfl)]
  · show (if "medium" = "easy" ∨ "medium" = "medium" ∨ "medium" = "hard"
        then _ else none) = _
    rw [if_pos (Or.inr (Or.inl rfl))]
  · show (if "hard" = "easy" ∨ "hard" = "medium" ∨ "hard" = "hard"
        then _ else none) = _
    rw [if_pos (Or.inr (Or.inr rfl))]

/-- A sequence of `_append_attempt_jsonl` calls, oldest first. -/
def appendAll (as : List Attempt) (lines : List RawLine) : List RawLine :=
  as.foldl (fun ls a => appendAttempt a ls) lines

theorem appendAll_eq (as : List Attempt) :
    ∀ lines, appendAll as lines =
      lines ++ as.map (fun a => .json (encodeAttempt a)) := by
  induction as with
  | nil => intro lines; simp [appendAll]
  | cons a as ih =>
      intro lines
      show appendAll as (appendAttempt a lines) = _
      rw [ih (appendAttempt a lines)]
      simp [appendAttempt]

theorem filterMap_read_encode (as : List Attempt)
    (h : ∀ a ∈ as, AttemptOk a ∧ a.date.off = some 0 ∧ CivilOk a.date.civil) :
    (as.map (fun a => RawLine.json (encodeAttempt a))).filterMap
      (readLine none) = as := by
  induction as with
  | nil => rfl
  | cons a as ih =>
      obtain ⟨hok, hoff, hciv⟩ := h a (List.mem_cons_self a as)
      have hl : readLine none (.json (encodeAttempt a)) = some a :=
        decode_encode a hok hoff hciv
      simp only [List.map_cons, List.filterMap_cons, hl]
      rw [ih (fun x hx => h x (List.mem_cons_of_mem a hx))]

/-- C2 (amended): appending valid records with timezone-aware UTC dates
to an empty store and reading back with `limit = n` returns exactly those
records, newest first, field-for-field equal; and in general `ReadAll`
returns the most recent `limit` records passing the filter, newest
first. -/
theorem c2_append_read_roundtrip :
    (∀ as : List Attempt,
      (∀ a ∈ as, AttemptOk a ∧ a.date.off = some 0 ∧ CivilOk a.date.civil) →
      readAttempts as.length none (appendAll as []) = as.reverse)
    ∧ (∀ (limit : ℕ) (role : Option String) (lines : List RawLine),
        readAttempts limit role lines =
          ((lines.filterMap (readLine role)).drop
            ((lines.filterMap (readLine role)).length - limit)).reverse) := by
  constructor
  · intro as h
    rw [readAttempts, appendAll_eq as [], List.nil_append,
      filterMap_read_encode as h, List.take_of_length_le (by simp)]
  · intro limit role lines
    show (lines.filterMap (readLine role)).reverse.take limit = _
    have h := List.rtake_eq_reverse_take_reverse
      (l := lines.filterMap (readLine role)) (n := limit)
    calc (lines.filterMap (readLine role)).reverse.take limit
        = (((lines.filterMap (readLine role)).reverse.take limit).reverse).reverse := by
          rw [List.reverse_reverse]
      _ = ((lines.filterMap (readLine role)).rtake limit).reverse := by rw [← h]
      _ = _ := by rw [List.rtake]

/-- Witness for C2 (amended): two concrete UTC-dated records round-trip
newest first. -/
theorem c2_append_read_roundtrip_witness :
    readAttempts 2 none
      (appendAll
        [⟨"a1", "dev", 50, 30, ⟨⟨2025, 1, 1, 0, 0, 0, 0⟩, some 0⟩, none⟩,
         ⟨"a2", "ml", 90, 45, ⟨⟨2025, 6, 30, 12, 34, 56, 123456⟩, some 0⟩,
          some "hard"⟩] []) =
      [⟨"a2", "ml", 90, 45, ⟨⟨2025, 6, 30, 12, 34, 56, 123456⟩, some 0⟩,
        some "hard"⟩,
       ⟨"a1", "dev", 50, 30, ⟨⟨2025, 1, 1, 0, 0, 0, 0⟩, some 0⟩, none⟩] := by
  have h := c2_append_read_roundtrip.1
    [⟨"a1", "dev", 50, 30, ⟨⟨2025, 1, 1, 0, 0, 0, 0⟩, some 0⟩, none⟩,
     ⟨"a2", "ml", 90, 45, ⟨⟨2025, 6, 30, 12, 34, 56, 123456⟩, some 0⟩,
      some "hard"⟩]
    (by
      intro a ha
      simp only [List.mem_cons, List.mem_singleton] at ha
      rcases ha with rfl | rfl | h'
      · exact ⟨by decide, rfl, by decide⟩
      · exact ⟨by decide, rfl, by decide⟩
      · cases h')
  exact h

/-- C2 counterexample: a record whose date is timezone-naive (which the
POST endpoint accepts) does not round-trip field-equal — the read-back
date is timezone-aware, and Python's `==` on a naive and an aware
datetime is `False`. -/
theorem c2_roundtrip_counterexample :
    readAttempts 1 none
      (appendAttempt
        ⟨"a1", "dev", 50, 30, ⟨⟨2025, 1, 1, 0, 0, 0, 0⟩, none⟩, none⟩ []) =
      [⟨"a1", "dev", 50, 30, ⟨⟨2025, 1, 1, 0, 0, 0, 0⟩, some 0⟩, none⟩]
    ∧ pyAttemptEq
        ⟨"a1", "dev", 50, 30, ⟨⟨2025, 1, 1, 0, 0, 0, 0⟩, some 0⟩, none⟩
        ⟨"a1", "dev", 50, 30, ⟨⟨2025, 1, 1, 0, 0, 0, 0⟩, none⟩, none⟩ = false := by
  exact ⟨rfl, rfl⟩

theorem length_filterMap_of_isSome {α β : Type} (f : α → Option β)
    (l : List α) (h : ∀ x ∈ l, (f x).isSome) :
    (l.filterMap f).length = l.length := by
  induction l with
  | nil => rfl
  | cons x xs ih =>
      have hx := h x (List.mem_cons_self x xs)
      obtain ⟨b, hb⟩ := Option.isSome_iff_exists.mp hx
      simp only [List.filterMap_cons, hb, List.length_cons]
      rw [ih (fun y hy => h y (List.mem_cons_of_mem x hy))]

/-- C8: malformed-line tolerance.  A line on which decoding raises is
skipped: inserting it anywhere leaves the read result unchanged, and a
file of N valid lines plus one corrupt line yields exactly N records
(the reader is a total function — no exception can surface). -/
theorem c8_malformed_line_tolerance (l1 l2 : List RawLine) (limit : ℕ)
    (role : Option String) (bad : RawLine) (hbad : readLine role bad = none) :
    readAttempts limit role (l1 ++ bad :: l2) = readAttempts limit role (l1 ++ l2)
    ∧ ((∀ l ∈ l1 ++ l2, (readLine role l).isSome) → (l1 ++ l2).length ≤ limit →
        (readAttempts limit role (l1 ++ bad :: l2)).length = (l1 ++ l2).length) := by
  have key : (l1 ++ bad :: l2).filterMap (readLine role) =
      (l1 ++ l2).filterMap (readLine role) := by
    simp only [List.filterMap_append, List.filterMap_cons, hbad]
  constructor
  · rw [readAttempts, readAttempts, key]
  · intro hall hlen
    rw [readAttempts, key,
      List.take_of_length_le
        (by rw [List.length_reverse, length_filterMap_of_isSome _ _ hall]; exact hlen),
      List.length_reverse, length_filterMap_of_isSome _ _ hall]

/-- Witness for C8: one valid record plus one undecodable line reads as
exactly that one record. -/
theorem c8_malformed_line_tolerance_witness :
    readAttempts 100 none
        [.json (encodeAttempt
          ⟨"a1", "dev", 50, 30, ⟨⟨2025, 1, 1, 0, 0, 0, 0⟩, some 0⟩, none⟩),
         .malformed] =
      readAttempts 100 none
        [.json (encodeAttempt
          ⟨"a1", "dev", 50, 30, ⟨⟨2025, 1, 1, 0, 0, 0, 0⟩, some 0⟩, none⟩)]
    ∧ (readAttempts 100 none
        [.json (encodeAttempt
          ⟨"a1", "dev", 50, 30, ⟨⟨2025, 1, 1, 0, 0, 0, 0⟩, some 0⟩, none⟩),
         .malformed]).length = 1 := by
  have h := c8_malformed_line_tolerance
    [.json (encodeAttempt
      ⟨"a1", "dev", 50, 30, ⟨⟨2025, 1, 1, 0, 0, 0, 0⟩, some 0⟩, none⟩)]
    [] 100 none .malformed rfl
  exact ⟨h.1, h.2 (by intro l hl; simp only [List.append_nil,
    List.mem_singleton] at hl; subst hl; decide) (by simp)⟩

theorem setKey_self (kvs : List (String × Json)) (k : String) (v : Json)
    (h : Json.lookup kvs k = some v) : Json.setKey kvs k v = kvs := by
  induction kvs with
  | nil => simp [Json.lookup] at h
  | cons kv rest ih =>
      obtain ⟨k', v'⟩ := kv
      rw [Json.lookup] at h
      rw [Json.setKey]
      by_cases hk : k' = k
      · rw [if_pos hk] at h
        injection h with hv
        rw [if_pos hk, hv]
      · rw [if_neg hk] at h
        rw [if_neg hk, ih h]

theorem okBind {ε α β : Type} (a : α) (f : α → Except ε β) :
    ((Except.ok a : Except ε α) >>= f) = f a := rfl

/-- C4 (amended): the identity rewrite is a no-op on files whose lines
are all record objects carrying a `date` field already in canonical form
(a fixed point of the date normalization); the record set, the file, and
the count are unchanged. -/
theorem c4_identity_rewrite_noop (now : PyDateTime) (lines : List RawLine)
    (h : ∀ l ∈ lines, ∃ kvs v, l = .json (.obj kvs) ∧
         Json.lookup kvs "date" = some v ∧ toIsoZjson v = v) :
    rewriteAttempts (fun j => some j) now lines = .ok (lines, lines.length) := by
  induction lines with
  | nil => rfl
  | cons l rest ih =>
      obtain ⟨kvs, v, rfl, hlk, hfix⟩ := h _ (List.mem_cons_self _ _)
      have ihr := ih (fun x hx => h x (List.mem_cons_of_mem _ hx))
      simp only [rewriteAttempts, ihr, okBind, normalizeDateKvs, hlk, hfix,
        setKey_self kvs "date" v hlk, List.length_cons]

/-- Witness for C4 (amended): a one-record file with a canonical ISO-Z
date is returned untouched with count 1. -/
theorem c4_identity_rewrite_noop_witness :
    rewriteAttempts (fun j => some j) ⟨⟨2025, 1, 1, 0, 0, 0, 0⟩, some 0⟩
        [.json (.obj [("id", .str "a1"),
          ("date", .str "2025-01-01T00:00:00Z")])] =
      .ok ([.json (.obj [("id", .str "a1"),
          ("date", .str "2025-01-01T00:00:00Z")])], 1) := by
  exact c4_identity_rewrite_noop ⟨⟨2025, 1, 1, 0, 0, 0, 0⟩, some 0⟩
    [.json (.obj [("id", .str "a1"), ("date", .str "2025-01-01T00:00:00Z")])]
    (by
      intro l hl
      simp only [List.mem_singleton] at hl
      subst hl
      exact ⟨[("id", .str "a1"), ("date", .str "2025-01-01T00:00:00Z")],
        .str "2025-01-01T00:00:00Z", rfl, rfl, rfl⟩)

/-- C4 counterexample: the identity rewrite is not value-preserving in
general — a record whose `date` field holds the number `5` is rewritten
with `date` re-normalized to the *string* `"5"` (`_to_iso_z` falls back
to `str(val)`), so a field value changes. -/
theorem c4_identity_rewrite_counterexample :
    rewriteAttempts (fun j => some j) ⟨⟨2025, 1, 1, 0, 0, 0, 0⟩, some 0⟩
        [.json (.obj [("id", .str "a1"), ("date", .num 5)])] =
      .ok ([.json (.obj [("id", .str "a1"), ("date", .str "5")])], 1)
    ∧ (Json.str "5") ≠ (Json.num 5) :=
  ⟨rfl, fun h => Json.noConfusion h⟩

/-- Lines the rewriter can survive: blanks, undecodable lines, and JSON
objects (a decoded non-object surviving the transform raises). -/
def LineOkForRewrite : RawLine → Prop
  | .json (.obj _) => True
  | .json _ => False
  | _ => True

/-- The file contents `_rewrite_attempts_jsonl` writes for one input line
when nothing is dropped: blanks and undecodable lines vanish, record
objects are re-serialized with their date re-normalized. -/
def normLine (now : PyDateTime) : RawLine → Option RawLine
  | .json (.obj kvs) => some (.json (.obj (normalizeDateKvs now kvs)))
  | _ => none

theorem rewrite_del_absent (now : PyDateTime) (aid : String)
    (lines : List RawLine) (hok : ∀ l ∈ lines, LineOkForRewrite l)
    (habs : ∀ l ∈ lines, matchesId aid l = false) :
    rewriteAttempts (delTransform aid) now lines =
      .ok (lines.filterMap (normLine now),
           (lines.filterMap (normLine now)).length) := by
  induction lines with
  | nil => rfl
  | cons l rest ih =>
      have h1 := hok l (List.mem_cons_self l rest)
      have h2 := habs l (List.mem_cons_self l rest)
      have ihr := ih (fun x hx => hok x (List.mem_cons_of_mem l hx))
        (fun x hx => habs x (List.mem_cons_of_mem l hx))
      cases l with
      | blank => simpa [rewriteAttempts, List.filterMap_cons, normLine] using ihr
      | malformed => simpa [rewriteAttempts, List.filterMap_cons, normLine] using ihr
      | json j =>
          cases j with
          | obj kvs =>
              have hdel : delTransform aid (.obj kvs) = some (.obj kvs) := by
                cases hl : Json.lookup kvs "id" with
                | none => simp [delTransform, hl]
                | some v =>
                    cases v with
                    | str s =>
                        simp only [matchesId, hl] at h2
                        simp only [delTransform, hl]
                        rw [if_neg (by simpa using h2)]
                    | obj kvs' => simp [delTransform, hl]
                    | arr es => simp [delTransform, hl]
                    | num n => simp [delTransform, hl]
                    | bool b => simp [delTransform, hl]
                    | null => simp [delTransform, hl]
              simp only [rewriteAttempts, hdel, ihr, okBind,
                List.filterMap_cons, normLine, List.length_cons]
          | arr es => exact absurd h1 (by simp [LineOkForRewrite])
          | str s => exact absurd h1 (by simp [LineOkForRewrite])
          | num n => exact absurd h1 (by simp [LineOkForRewrite])
          | bool b => exact absurd h1 (by simp [LineOkForRewrite])
          | null => exact absurd h1 (by simp [LineOkForRewrite])

/-- C10 (amended): on a store whose parseable lines are all record
objects, deleting an id that matches nothing is not a no-op: the full
rewrite still runs — every surviving record re-serialized with its date
re-normalized, blanks and corrupt lines dropped, the file replaced — and
only then is the 404 raised. -/
theorem c10_delete_absent_rewrites (now : PyDateTime) (aid : String)
    (lines : List RawLine) (hok : ∀ l ∈ lines, LineOkForRewrite l)
    (habs : ∀ l ∈ lines, matchesId aid l = false) :
    deleteAttempt now aid lines = (.notFound, lines.filterMap (normLine now)) := by
  unfold deleteAttempt
  rw [rewrite_del_absent now aid lines hok habs]
  have hany : lines.any (matchesId aid) = false := by
    rw [List.any_eq_false]
    intro x hx
    simp [habs x hx]
  rw [hany]
  simp

/-- Witness for C10 (amended): deleting an absent id from a store holding
one record (with a non-canonical numeric date) plus one corrupt line
yields a 404 *and* a rewritten file: the corrupt line is gone and the
date is now the string `"5"`. -/
theorem c10_delete_absent_rewrites_witness :
    deleteAttempt ⟨⟨2025, 1, 1, 0, 0, 0, 0⟩, some 0⟩ "a9"
        [.json (.obj [("id", .str "a1"), ("date", .num 5)]), .malformed] =
      (.notFound, [.json (.obj [("id", .str "a1"), ("date", .str "5")])]) := by
  exact c10_delete_absent_rewrites ⟨⟨2025, 1, 1, 0, 0, 0, 0⟩, some 0⟩ "a9"
    [.json (.obj [("id", .str "a1"), ("date", .num 5)]), .malformed]
    (by
      intro l hl
      simp only [List.mem_cons, List.mem_singleton] at hl
      rcases hl with rfl | rfl | h'
      · trivial
      · trivial
      · cases h')
    (by
      intro l hl
      simp only [List.mem_cons, List.mem_singleton] at hl
      rcases hl with rfl | rfl | h'
      · rfl
      · rfl
      · cases h')

/-- C10 counterexample (to the universal "for every store state"): with
an array-shaped line in the store, deleting an absent id neither rewrites
the file nor reaches the 404 — the date-normalization raises `TypeError`
on the non-dict survivor and the exception propagates (HTTP 500), the
original file left in place. -/
theorem c10_delete_absent_counterexample :
    deleteAttempt ⟨⟨2025, 1, 1, 0, 0, 0, 0⟩, some 0⟩ "a9" [.json (.arr [])] =
      (.typeErrorRaised, [.json (.arr [])]) := rfl

def IsObjJson (j : Json) : Prop := ∃ kvs, j = .obj kvs

/-- C1 (amended): a line holding a JSON array is *not* flattened.  The
reader skips such a line entirely (it contributes zero records), and the
rewriter — whose transforms pass non-dict values through unchanged —
raises `TypeError` on it, failing the whole rewrite. -/
theorem c1_array_lines_not_flattened :
    (∀ (role : Option String) (limit : ℕ) (elems : List Json)
        (l1 l2 : List RawLine),
      readAttempts limit role (l1 ++ .json (.arr elems) :: l2) =
        readAttempts limit role (l1 ++ l2))
    ∧ (∀ (t : Json → Option Json) (now : PyDateTime) (elems : List Json)
        (rest : List RawLine) (j : Json),
        t (.arr elems) = some j → ¬ IsObjJson j →
        rewriteAttempts t now (.json (.arr elems) :: rest) = .error .typeError) := by
  constructor
  · intro role limit elems l1 l2
    rw [readAttempts, readAttempts]
    simp only [List.filterMap_append, List.filterMap_cons,
      show readLine role (.json (.arr elems)) = none from rfl]
  · intro t now elems rest j ht hnotobj
    cases j with
    | obj kvs => exact absurd ⟨kvs, rfl⟩ hnotobj
    | arr es => simp [rewriteAttempts, ht]
    | str s => simp [rewriteAttempts, ht]
    | num n => simp [rewriteAttempts, ht]
    | bool b => simp [rewriteAttempts, ht]
    | null => simp [rewriteAttempts, ht]

/-- Witness for C1 (amended): a concrete array line between two other
lines is invisible to the reader, and the rewriter fails on an array
line at the head under the identity transform. -/
theorem c1_array_lines_not_flattened_witness :
    readAttempts 5 none [.malformed, .json (.arr [.num 1]), .blank] =
      readAttempts 5 none [.malformed, .blank]
    ∧ rewriteAttempts (fun j => some j) ⟨⟨2025, 1, 1, 0, 0, 0, 0⟩, some 0⟩
        [.json (.arr [.num 1]), .blank] = .error .typeError := by
  constructor
  · exact c1_array_lines_not_flattened.1 none 5 [.num 1] [.malformed] [.blank]
  · exact c1_array_lines_not_flattened.2 (fun j => some j)
      ⟨⟨2025, 1, 1, 0, 0, 0, 0⟩, some 0⟩ [.num 1] [.blank] (.arr [.num 1]) rfl
      (by rintro ⟨kvs, h⟩; cases h)

/-- C1 counterexample: a store whose single line is a JSON array holding
one perfectly decodable record object.  The record itself decodes, yet
the reader returns nothing (the line is skipped, not flattened), and the
rewrite with the identity transform fails with `TypeError` instead of
applying the transform to the array's element. -/
theorem c1_array_lines_counterexample :
    decodeAttempt (encKvs
        ⟨"a1", "dev", 50, 30, ⟨⟨2025, 1, 1, 0, 0, 0, 0⟩, some 0⟩, none⟩) =
      some ⟨"a1", "dev", 50, 30, ⟨⟨2025, 1, 1, 0, 0, 0, 0⟩, some 0⟩, none⟩
    ∧ readAttempts 10 none
        [.json (.arr [encodeAttempt
          ⟨"a1", "dev", 50, 30, ⟨⟨2025, 1, 1, 0, 0, 0, 0⟩, some 0⟩, none⟩])] = []
    ∧ rewriteAttempts (fun j => some j) ⟨⟨2025, 1, 1, 0, 0, 0, 0⟩, some 0⟩
        [.json (.arr [encodeAttempt
          ⟨"a1", "dev", 50, 30, ⟨⟨2025, 1, 1, 0, 0, 0, 0⟩, some 0⟩, none⟩])] =
      .error .typeError :=
  ⟨rfl, rfl, rfl⟩

/-! ## Conditional responses (`_etag_json`, main.py 406-413)

`json.dumps(..., separators=(",",":"), default=str)` is modelled by an
executable compact serializer (`ensure_ascii` escaping); `hashlib.sha1`
is a foreign primitive and is modelled as an arbitrary hex-digest
function `hashHex`, universally quantified in the theorems. -/

def hexDigit (n : ℕ) : Char :=
  if n % 16 < 10 then Char.ofNat (48 + n % 16) else Char.ofNat (87 + n % 16)

def hex4 (n : ℕ) : String :=
  String.mk [hexDigit (n / 4096), hexDigit (n / 256), hexDigit (n / 16),
    hexDigit n]

/-- One character of a JSON string under `json.dumps` defaults
(`ensure_ascii=True`): control and non-ASCII characters are `\uXXXX`
escaped (astral code points as surrogate pairs). -/
def escapeChar (c : Char) : String :=
  if c = '"' then "\\\""
  else if c = '\\' then "\\\\"
  else if c = '\n' then "\\n"
  else if c = '\t' then "\\t"
  else if c = '\r' then "\\r"
  else if c = Char.ofNat 8 then "\\b"
  else if c = Char.ofNat 12 then "\\f"
  else if c.toNat < 32 then "\\u" ++ hex4 c.toNat
  else if c.toNat < 127 then String.singleton c
  else if c.toNat < 65536 then "\\u" ++ hex4 c.toNat
  else
    "\\u" ++ hex4 (55296 + (c.toNat - 65536) / 1024) ++
    "\\u" ++ hex4 (56320 + (c.toNat - 65536) % 1024)

def dumpsStr (s : String) : String :=
  "\"" ++ s.toList.foldl (fun acc c => acc ++ escapeChar c) "" ++ "\""

mutual

/-- `json.dumps(v, separators=(",", ":"))`, with the comma-joining of
object members and array elements written out recursively. -/
def dumps : Json → String
  | .obj kvs => "\x7b" ++ dumpsKvs kvs ++ "\x7d"
  | .arr es => "[" ++ dumpsList es ++ "]"
  | .str s => dumpsStr s
  | .num n => toString n
  | .bool true => "true"
  | .bool false => "false"
  | .null => "null"

def dumpsKvs : List (String × Json) → String
  | [] => ""
  | [kv] => dumpsStr kv.1 ++ ":" ++ dumps kv.2
  | kv :: rest => dumpsStr kv.1 ++ ":" ++ dumps kv.2 ++ "," ++ dumpsKvs rest

def dumpsList : List Json → String
  | [] => ""
  | [j] => dumps j
  | j :: rest => dumps j ++ "," ++ dumpsList rest

end

/-- What `_etag_json` sends back: status, optional body, and the two
cache headers it always sets. -/
structure EtagResponse where
  status : ℕ
  body : Option String
  etagHeader : String
  cacheControl : String
deriving DecidableEq

/-- The fingerprint `_etag_json` computes: the hex digest of the
serialized payload, wrapped in double quotes. -/
def etagOf (hashHex : String → String) (data : Json) : String :=
  "\"" ++ hashHex (dumps data) ++ "\""

/-- `_etag_json(request, data, max_age)`: serialize, fingerprint, honor
`If-None-Match` with 304/empty body, else 200 with the body; both carry
the `ETag` and `Cache-Control: public, max-age=N` headers. -/
def etagJson (hashHex : String → String) (inm : Option String) (data : Json)
    (maxAge : ℕ := 30) : EtagResponse :=
  let body := dumps data
  let etag := "\"" ++ hashHex body ++ "\""
  if inm = some etag then
    ⟨304, none, etag, "public, max-age=" ++ toString maxAge⟩
  else
    ⟨200, some body, etag, "public, max-age=" ++ toString maxAge⟩

/-- C9: conditional-response behaviour.  The fingerprint is a function
of the serialized payload alone (same payload, same token); a matching
validator token yields 304 with no body; a non-matching one yields 200
with the full serialized body, the fingerprint, and the max-age
directive; and whenever the digests of two payloads differ (no hash
collision — e.g. after changing one field), their tokens differ and the
stale token gets a full body. -/
theorem c9_conditional_response (hashHex : String → String) (d d2 : Json)
    (inm : Option String) (maxAge : ℕ) :
    (etagOf hashHex d = etagOf hashHex d)
    ∧ etagJson hashHex (some (etagOf hashHex d)) d maxAge =
        ⟨304, none, etagOf hashHex d, "public, max-age=" ++ toString maxAge⟩
    ∧ (inm ≠ some (etagOf hashHex d) →
        etagJson hashHex inm d maxAge =
          ⟨200, some (dumps d), etagOf hashHex d,
            "public, max-age=" ++ toString maxAge⟩)
    ∧ (hashHex (dumps d) ≠ hashHex (dumps d2) →
        etagOf hashHex d ≠ etagOf hashHex d2
        ∧ etagJson hashHex (some (etagOf hashHex d)) d2 maxAge =
            ⟨200, some (dumps d2), etagOf hashHex d2,
              "public, max-age=" ++ toString maxAge⟩) := by
  have hinj : hashHex (dumps d) ≠ hashHex (dumps d2) →
      etagOf hashHex d ≠ etagOf hashHex d2 := by
    intro h hcontra
    apply h
    have hd := congrArg String.data hcontra
    simp only [etagOf, String.data_append] at hd
    have h3 : ['\"'] ++ (hashHex (dumps d)).data =
        ['\"'] ++ (hashHex (dumps d2)).data := List.append_cancel_right hd
    have h2 := List.append_cancel_left h3
    cases hh1 : hashHex (dumps d) with
    | mk l1 =>
        cases hh2 : hashHex (dumps d2) with
        | mk l2 =>
            rw [hh1, hh2] at h2
            exact congrArg String.mk h2
  refine ⟨rfl, ?_, ?_, ?_⟩
  · show (if some (etagOf hashHex d) = some (etagOf hashHex d) then _ else _) = _
    rw [if_pos rfl]
    rfl
  · intro h
    show (if inm = some (etagOf hashHex d) then _ else _) = _
    rw [if_neg h]
    rfl
  · intro h
    refine ⟨hinj h, ?_⟩
    show (if some (etagOf hashHex d) = some (etagOf hashHex d2) then _ else _) = _
    rw [if_neg (fun hc => hinj h (Option.some.inj hc))]
    rfl

/-- Witness for C9: with an explicit digest function and two one-field
payloads differing in that field, the matching token yields 304/empty
and the tokens differ. -/
theorem c9_conditional_response_witness :
    etagJson (fun s => s) (some (etagOf (fun s => s) (.obj [("a", .num 1)])))
        (.obj [("a", .num 1)]) 30 =
      ⟨304, none, etagOf (fun s => s) (.obj [("a", .num 1)]),
        "public, max-age=30"⟩
    ∧ etagOf (fun s => s) (.obj [("a", .num 1)]) ≠
        etagOf (fun s => s) (.obj [("a", .num 2)]) := by
  have e1 : dumps (.obj [("a", .num 1)]) = "\x7b\"a\":1\x7d" := by
    simp only [dumps, dumpsKvs]
    rfl
  have e2 : dumps (.obj [("a", .num 2)]) = "\x7b\"a\":2\x7d" := by
    simp only [dumps, dumpsKvs]
    rfl
  constructor
  · exact (c9_conditional_response (fun s => s) (.obj [("a", .num 1)])
      (.obj [("a", .num 1)]) none 30).2.1
  · exact ((c9_conditional_response (fun s => s) (.obj [("a", .num 1)])
      (.obj [("a", .num 2)]) none 30).2.2.2 (by rw [e1, e2]; decide)).1

end Intervue
